import Mathlib

/-!
Verification of the feed-synchronization layer of the poster-app-service
repository (`src/components/atoms/ViewGraph.tsx`).

The development shallowly embeds:

* the JavaScript runtime values flowing through the component as an
  inductive `Json` type (JS `undefined` is the `Json.undef` constructor,
  which `JSON.parse` never produces);
* `JSON.parse` as an executable fuel-based parser `jsonParse` returning
  `Option Json` (`none` models a thrown `SyntaxError`); numeric literals
  are modelled for integers only — none of the payloads considered here
  are numeric;
* the post decoder `parsePost`, the author filter and the render guard of
  the `ViewGraph` component as pure functions;
* the `useEffect` subscription/debounce logic as a discrete-event state
  machine over an explicit `EffectState`, driven by a list of stimuli
  (chain events and teardown) with timers fired at their due times.
-/

/-- Runtime JS value as produced by `JSON.parse` / carried in GraphQL rows.
`undef` models JS `undefined` (an absent `action` field). -/
inductive Json where
  | null : Json
  | undef : Json
  | bool (b : Bool) : Json
  | num (n : Int) : Json
  | str (s : String) : Json
  | arr (elems : List Json) : Json
  | obj (fields : List (String × Json)) : Json

/-- Double-quote character. -/
def quoteChar : Char := Char.ofNat 34

/-- Backslash character. -/
def backslashChar : Char := Char.ofNat 92

/-- Opening curly brace character. -/
def lbraceChar : Char := Char.ofNat 123

/-- Closing curly brace character. -/
def rbraceChar : Char := Char.ofNat 125

/-- JSON whitespace (space, newline, tab, carriage return). -/
def isWsChar (c : Char) : Bool :=
  c.toNat = 32 || c.toNat = 10 || c.toNat = 9 || c.toNat = 13

/-- Drop leading JSON whitespace. -/
def skipWs : List Char → List Char
  | [] => []
  | c :: cs => if isWsChar c then skipWs cs else c :: cs

/-- Decode a single JSON string escape character (`\uXXXX` is not modelled;
no payload considered here uses it). -/
def escChar (e : Char) : Option Char :=
  if e = quoteChar then some quoteChar
  else if e = backslashChar then some backslashChar
  else if e = '/' then some '/'
  else if e = 'n' then some (Char.ofNat 10)
  else if e = 't' then some (Char.ofNat 9)
  else if e = 'r' then some (Char.ofNat 13)
  else if e = 'b' then some (Char.ofNat 8)
  else if e = 'f' then some (Char.ofNat 12)
  else none

/-- Parse the body of a JSON string after the opening quote; returns the
decoded characters and the remaining input after the closing quote. -/
def parseStringChars : List Char → Option (List Char × List Char)
  | [] => none
  | c :: cs =>
    if c = quoteChar then some ([], cs)
    else if c = backslashChar then
      match cs with
      | [] => none
      | e :: cs2 =>
        match escChar e with
        | none => none
        | some ch =>
          match parseStringChars cs2 with
          | none => none
          | some (acc, r) => some (ch :: acc, r)
    else
      match parseStringChars cs with
      | none => none
      | some (acc, r) => some (c :: acc, r)

/-- Numeric value of a list of decimal digit characters. -/
def digitsVal (ds : List Char) : Nat :=
  ds.foldl (fun a c => a * 10 + (c.toNat - 48)) 0

/-- Parse a JSON integer literal (fractions and exponents are rejected by
this model; no payload considered here is numeric). -/
def parseNumberChars (input : List Char) : Option (Json × List Char) :=
  let core := fun (l : List Char) (neg : Bool) =>
    let ds := l.takeWhile Char.isDigit
    let rest := l.dropWhile Char.isDigit
    if ds.isEmpty then none
    else
      match rest with
      | [] => some (Json.num (if neg then -(digitsVal ds : Int) else (digitsVal ds : Int)), [])
      | c :: _ =>
        if c = '.' || c = 'e' || c = 'E' then none
        else some (Json.num (if neg then -(digitsVal ds : Int) else (digitsVal ds : Int)), rest)
  match input with
  | [] => none
  | c :: cs => if c = '-' then core cs true else core (c :: cs) false

/-- Strip an expected keyword from the input, character by character. -/
def stripKeyword : List Char → List Char → Option (List Char)
  | [], rest => some rest
  | _ :: _, [] => none
  | k :: ks, c :: cs => if c = k then stripKeyword ks cs else none

/-- Parsing obligation for the fuel-based JSON parser: a whole value, the
members of an object after its opening brace, or the elements of an array
after its opening bracket. -/
inductive PTask where
  | value : PTask
  | objMembers (acc : List (String × Json)) : PTask
  | arrElems (acc : List Json) : PTask

/-- Fuel-based recursive-descent JSON parser; returns the parsed value and
the unconsumed input, or `none` on a syntax error or fuel exhaustion. -/
def parseV : Nat → PTask → List Char → Option (Json × List Char)
  | 0, _, _ => none
  | Nat.succ fuel, PTask.value, input =>
    (match skipWs input with
     | [] => none
     | c :: cs =>
       if c = lbraceChar then
         (match skipWs cs with
          | d :: r => if d = rbraceChar then some (Json.obj [], r)
                      else parseV fuel (PTask.objMembers []) (d :: r)
          | [] => none)
       else if c = '[' then
         (match skipWs cs with
          | d :: r => if d = ']' then some (Json.arr [], r)
                      else parseV fuel (PTask.arrElems []) (d :: r)
          | [] => none)
       else if c = quoteChar then
         (match parseStringChars cs with
          | some (sc, r) => some (Json.str (String.mk sc), r)
          | none => none)
       else
         (match stripKeyword ("true".toList) (c :: cs) with
          | some r => some (Json.bool true, r)
          | none =>
            match stripKeyword ("false".toList) (c :: cs) with
            | some r => some (Json.bool false, r)
            | none =>
              match stripKeyword ("null".toList) (c :: cs) with
              | some r => some (Json.null, r)
              | none => parseNumberChars (c :: cs)))
  | Nat.succ fuel, PTask.objMembers acc, input =>
    (match skipWs input with
     | c :: cs =>
       if c = quoteChar then
         (match parseStringChars cs with
          | none => none
          | some (key, r) =>
            (match skipWs r with
             | d :: r2 =>
               if d = ':' then
                 (match parseV fuel PTask.value r2 with
                  | none => none
                  | some (v, r3) =>
                    (match skipWs r3 with
                     | e :: r4 =>
                       if e = ',' then
                         parseV fuel (PTask.objMembers (acc ++ [(String.mk key, v)])) r4
                       else if e = rbraceChar then
                         some (Json.obj (acc ++ [(String.mk key, v)]), r4)
                       else none
                     | [] => none))
               else none
             | [] => none))
       else none
     | [] => none)
  | Nat.succ fuel, PTask.arrElems acc, input =>
    (match parseV fuel PTask.value input with
     | none => none
     | some (v, r) =>
       (match skipWs r with
        | e :: r2 =>
          if e = ',' then parseV fuel (PTask.arrElems (acc ++ [v])) r2
          else if e = ']' then some (Json.arr (acc ++ [v]), r2)
          else none
        | [] => none))

/-- Model of `JSON.parse`: `none` models a thrown `SyntaxError`, `some v`
a successful parse of the whole string. -/
def jsonParse (s : String) : Option Json :=
  match parseV (2 * s.length + 2) PTask.value s.toList with
  | some (v, rest) => if (skipWs rest).isEmpty then some v else none
  | none => none

/-- Raw post row as returned by the indexer (`type Post` in
`ViewGraph.tsx`): `action` is the possibly-absent structured action
(`Json.undef` when the field is missing, `Json.null` when null). -/
structure Post where
  id : String
  rawContent : String
  action : Json

/-- Author reference of a transaction group (the `from: { id }` shape). -/
structure Sender where
  id : String

/-- Transaction group row as returned by the
`GET_ALL_POSTS_IN_DESCENDING_ORDER` query: `fromAcct` embeds the source's
`from` field (a reserved word in Lean). -/
structure TxGroup where
  id : String
  fromAcct : Sender
  timestamp : Int
  posts : List Post

/-- First-match field lookup on a JS object's member list. -/
def objLookup : List (String × Json) → String → Option Json
  | [], _ => none
  | (k, v) :: rest, key => if k = key then some v else objLookup rest key

/-- JS property access `v[k]` as used by destructuring in the component:
a field of an object, `undefined` (here `none`) otherwise. -/
def jsGet : Json → String → Option Json
  | Json.obj fields, key => objLookup fields key
  | _, _ => none

/-- JS loose equality test `x == 'microblog'` on a possibly-undefined
value: true exactly for the string `"microblog"`. -/
def isMicroblogType : Option Json → Bool
  | some (Json.str s) => s = "microblog"
  | _ => false

/-- JS truthiness of a possibly-undefined value, as used by the render
guard `text && ...`. -/
def jsTruthy : Option Json → Bool
  | none => false
  | some Json.null => false
  | some Json.undef => false
  | some (Json.bool b) => b
  | some (Json.num n) => n ≠ 0
  | some (Json.str s) => s ≠ ""
  | some (Json.arr _) => true
  | some (Json.obj _) => true

/-- Value returned by `parsePost`'s catch handler:
`{ type: 'unknown', text: post.rawContent }`. -/
def unknownFallback (raw : String) : Json :=
  Json.obj [("type", Json.str "unknown"), ("text", Json.str raw)]

/-- Else-branch of `parsePost`: `JSON.parse(post.rawContent)` returned
as-is on success, with the surrounding catch handler absorbing a thrown
`SyntaxError` into the `unknown` fallback. -/
def parseRawOrFallback (raw : String) : Json :=
  match jsonParse raw with
  | some v => v
  | none => unknownFallback raw

/-- The component's `parsePost` (lines 138–154 of `ViewGraph.tsx`).
The `'type' in action` test throws a `TypeError` when `action` is not an
object (in particular when it is `null` or `undefined`); the throw is
absorbed by the catch handler, which returns the `unknown` fallback. For
an array, `'type' in action` is `false`, so control reaches `JSON.parse`.
On an object, the fast path requires both `'type' in action` and
`action.type == 'microblog'`. -/
def parsePost (post : Post) : Json :=
  match post.action with
  | Json.obj fields =>
    if (objLookup fields "type").isSome && isMicroblogType (objLookup fields "type") then
      post.action
    else
      parseRawOrFallback post.rawContent
  | Json.arr _ => parseRawOrFallback post.rawContent
  | _ => unknownFallback post.rawContent

/-- The author filter (line 178 of `ViewGraph.tsx`):
`transactions.filter(({from}) => !JACK_CENSORSHIP_LIST.includes(from.id))`.
The deny-list contents live in `lib/constants` (outside `src/`), so the
list is a parameter here. -/
def filterTransactions (denyList : List String) (txs : List TxGroup) : List TxGroup :=
  txs.filter (fun t => !(denyList.contains t.fromAcct.id))

/-- Data of one rendered post `Box` handed to the presentation layer. -/
structure RenderedBox where
  key : String
  image : Option Json
  authorId : String
  txId : String
  timestamp : Int
  text : Option Json
  typeTag : Option Json

/-- Per-post rendering (lines 180–186 of `ViewGraph.tsx`): a `Box` is
produced only when `text && type == 'microblog'` is truthy; otherwise the
map entry renders nothing. -/
def renderPost (t : TxGroup) (post : Post) : Option RenderedBox :=
  let parsed := parsePost post
  if jsTruthy (jsGet parsed "text") && isMicroblogType (jsGet parsed "type") then
    some { key := post.id
           image := jsGet parsed "image"
           authorId := t.fromAcct.id
           txId := t.id
           timestamp := t.timestamp
           text := jsGet parsed "text"
           typeTag := jsGet parsed "type" }
  else
    none

/-- Rendered boxes of a list of posts of one transaction group; entries
whose guard fails render nothing and contribute no box. -/
def renderPosts (t : TxGroup) (ps : List Post) : List RenderedBox :=
  ps.filterMap (renderPost t)

/-- Rendered boxes of one transaction group. -/
def renderTxGroup (t : TxGroup) : List RenderedBox :=
  renderPosts t t.posts

/-- Rendered output of the `ViewGraph` component body: the
`transactions.length === 0` branch renders the "No posts yet" message (no
post boxes); otherwise the deny-list filter is applied first, then each
surviving group's posts are decoded and rendered. -/
def viewGraphOutput (denyList : List String) (txs : List TxGroup) : List RenderedBox :=
  if txs.length = 0 then []
  else ((filterTransactions denyList txs).map renderTxGroup).flatten

/-- State of the `useEffect` body of `ViewGraph` (lines 84–132):
`interval` is the mutable `let interval` variable, `timers` the pending
`setTimeout` callbacks as `(handle, fire time)` pairs, `nextHandle` the
next timer handle, `listenerInstalled` whether the contract event filter
is installed, `reloadTimes` the times at which `loadPosts` ran, and
`isReloadIntervalLoading` the dispatched loading flag. -/
structure EffectState where
  interval : Option Nat
  timers : List (Nat × Nat)
  nextHandle : Nat
  listenerInstalled : Bool
  reloadTimes : List Nat
  isReloadIntervalLoading : Bool

/-- The `loadPosts` closure: issues the query (recorded as a reload at
time `t`) and dispatches `isReloadIntervalLoading: false`. -/
def loadPosts (t : Nat) (s : EffectState) : EffectState :=
  { s with reloadTimes := s.reloadTimes ++ [t], isReloadIntervalLoading := false }

/-- Effect setup at time `t`: `loadPosts()` runs immediately and the
`NewPost` event filter is installed; `interval` starts undefined. -/
def mountState (t : Nat) : EffectState :=
  loadPosts t
    { interval := none
      timers := []
      nextHandle := 0
      listenerInstalled := true
      reloadTimes := []
      isReloadIntervalLoading := false }

/-- The `delayedEventUpdate` handler at time `t` with debounce window `D`:
dispatches `isReloadIntervalLoading: true`, then, when `!interval` (always
the case: the source never assigns the `setTimeout` handle to `interval`),
calls `setTimeout(loadPosts, D)` — whose handle is discarded. -/
def delayedEventUpdate (D t : Nat) (s : EffectState) : EffectState :=
  let s1 := { s with isReloadIntervalLoading := true }
  match s1.interval with
  | none =>
    { s1 with timers := s1.timers ++ [(s1.nextHandle, t + D)]
              nextHandle := s1.nextHandle + 1 }
  | some _ => s1

/-- Delivery of a `NewPost` chain event at time `t`: the handler runs only
while the event filter is installed (`removeListener` detaches it). -/
def chainEvent (D t : Nat) (s : EffectState) : EffectState :=
  if s.listenerInstalled then delayedEventUpdate D t s else s

/-- The effect cleanup: `removeListener(filter, delayedEventUpdate)`
followed by `clearTimeout(interval)` — a no-op when `interval` is still
undefined. -/
def teardownEffect (s : EffectState) : EffectState :=
  let s1 := { s with listenerInstalled := false }
  match s1.interval with
  | some h => { s1 with timers := s1.timers.filter (fun p => p.1 ≠ h) }
  | none => s1

/-- Fire every pending timer due by time `t` (in scheduling order): each
runs `loadPosts` at its fire time. Timers fire regardless of whether the
event filter is still installed. -/
def fireDue (t : Nat) (s : EffectState) : EffectState :=
  let due := s.timers.filter (fun p => p.2 ≤ t)
  let rest := s.timers.filter (fun p => !(p.2 ≤ t))
  due.foldl (fun acc p => loadPosts p.2 acc) { s with timers := rest }

/-- External stimulus of the discrete-event simulation: a chain event or
the effect cleanup, each at a given time. -/
inductive Stim where
  | event (t : Nat) : Stim
  | unmount (t : Nat) : Stim

/-- Process one stimulus: timers due by its time fire first. -/
def stepStim (D : Nat) (s : EffectState) : Stim → EffectState
  | Stim.event t => chainEvent D t (fireDue t s)
  | Stim.unmount t => teardownEffect (fireDue t s)

/-- Process a time-ordered list of stimuli. -/
def runSim (D : Nat) (stims : List Stim) (s : EffectState) : EffectState :=
  stims.foldl (stepStim D) s

/-- Full simulation: mount at time 0, process the stimuli, then fire
every timer still pending by time `tEnd`. -/
def simulate (D : Nat) (stims : List Stim) (tEnd : Nat) : EffectState :=
  fireDue tEnd (runSim D stims (mountState 0))

/-- Concrete post whose payload is the literal non-JSON string `hello`
and whose `action` is an empty object. -/
def helloPost : Post := ⟨"p1", "hello", Json.obj []⟩

/-- Concrete transaction group by the non-deny-listed author `0xGOOD`
carrying `helloPost`. -/
def goodTx : TxGroup := ⟨"t1", ⟨"0xGOOD"⟩, 100, [helloPost]⟩

/-- Concrete transaction group by the deny-listed author `0xBAD` carrying
one well-formed microblog payload. -/
def badTx : TxGroup := ⟨"t2", ⟨"0xBAD"⟩, 100,
  [⟨"p2", "\x7b\"type\":\"microblog\",\"text\":\"hello\"\x7d", Json.undef⟩]⟩

/-- Generic transaction group used to instantiate per-post theorems. -/
def someTx : TxGroup := ⟨"t0", ⟨"0xANY"⟩, 0, []⟩

/-- Concrete post whose payload is syntactically valid JSON (`[]`) of the
wrong shape, with an empty-object `action`. -/
def wrongShapePost : Post := ⟨"p3", "[]", Json.obj []⟩

/-- Concrete post with an already-structured microblog `action` and a
parseable (but to-be-ignored) `rawContent`. -/
def fastPost : Post :=
  ⟨"p4", "[]", Json.obj [("type", Json.str "microblog"), ("text", Json.str "hi")]⟩

/-- Concrete post whose `action` carries a non-`microblog` type. -/
def otherTypePost : Post := ⟨"p5", "hello", Json.obj [("type", Json.str "unknown")]⟩

/-- Concrete post decoding to a microblog with an empty `text`. -/
def emptyTextPost : Post := ⟨"p6", "\x7b\"type\":\"microblog\",\"text\":\"\"\x7d", Json.obj []⟩

/-- Concrete post with a null `action` and a well-formed microblog
payload in `rawContent`. -/
def nullActionPost : Post :=
  ⟨"p7", "\x7b\"type\":\"microblog\",\"text\":\"hi\"\x7d", Json.null⟩

/-- Helper: the loose-equality test succeeds exactly on the string
`"microblog"`. -/
theorem isMicroblogType_eq {o : Option Json} :
    isMicroblogType o = true ↔ o = some (Json.str "microblog") := by
  cases o with
  | none => simp [isMicroblogType]
  | some v => cases v <;> simp [isMicroblogType]

/-- Helper: every rendered box of a transaction group carries that
group's author identifier. -/
theorem authorId_of_mem_renderTxGroup {t : TxGroup} {b : RenderedBox}
    (hb : b ∈ renderTxGroup t) : b.authorId = t.fromAcct.id := by
  simp only [renderTxGroup, renderPosts, List.mem_filterMap] at hb
  obtain ⟨p, _, hp⟩ := hb
  simp only [renderPost] at hp
  split at hp
  · cases hp
    rfl
  · cases hp

/-- C1: contrary to the claim, the debounce never coalesces: the source
declares `let interval` but never assigns the `setTimeout` handle to it,
so `!interval` is always true and every chain event schedules a fresh
timer. With events at t=0, 1, 2 and window D=12, three timers coexist
(handles 0, 1, 2, due at 12, 13, 14), `interval` is still unset, and
three event-driven reloads fire (at 12, 13 and 14, after the mount-time
reload at 0) — not one. -/
theorem debounce_window_fires_three_reloads :
    (simulate 12 [Stim.event 0, Stim.event 1, Stim.event 2] 20).reloadTimes
      = [0, 12, 13, 14]
  ∧ (runSim 12 [Stim.event 0, Stim.event 1, Stim.event 2] (mountState 0)).timers
      = [(0, 12), (1, 13), (2, 14)]
  ∧ (runSim 12 [Stim.event 0, Stim.event 1, Stim.event 2] (mountState 0)).interval
      = none :=
  ⟨rfl, rfl, rfl⟩

/-- C4: after an event at t=0 and teardown at t=5, the event filter is
indeed removed (a stale event at t=7 changes nothing), but
`clearTimeout(interval)` runs with `interval` still undefined, so the
timer scheduled at t=0 survives teardown and fires a reload at t=12 —
contradicting the claim that cancel clears any pending timer without
firing it. -/
theorem teardown_pending_timer_still_fires :
    (runSim 12 [Stim.event 0, Stim.unmount 5] (mountState 0)).timers = [(0, 12)]
  ∧ (runSim 12 [Stim.event 0, Stim.unmount 5] (mountState 0)).listenerInstalled = false
  ∧ (simulate 12 [Stim.event 0, Stim.unmount 5] 20).reloadTimes = [0, 12]
  ∧ runSim 12 [Stim.event 0, Stim.unmount 5, Stim.event 7] (mountState 0)
      = runSim 12 [Stim.event 0, Stim.unmount 5] (mountState 0) :=
  ⟨rfl, rfl, rfl, rfl⟩

/-- C2 counterexample: on the syntactically valid but wrong-shape payload
`[]` (with an empty-object `action`), `parsePost` returns the parsed
array as-is — its `type` is absent, not `"unknown"` — instead of the
`{type: 'unknown', text: rawContent}` value the claim requires. -/
theorem parsePost_wrong_shape_not_unknown :
    parsePost wrongShapePost = Json.arr []
  ∧ jsGet (parsePost wrongShapePost) "type" = none
  ∧ parsePost wrongShapePost ≠ unknownFallback wrongShapePost.rawContent := by
  refine ⟨rfl, rfl, ?_⟩
  intro h
  have h1 : jsGet (parsePost wrongShapePost) "type" = none := rfl
  rw [h] at h1
  exact Option.noConfusion h1

/-- C2 (amended): `parsePost` is total, and when the fast path does not
apply and `rawContent` is not syntactically valid JSON, the result is
exactly `{type: 'unknown', text: rawContent}` with the raw string
preserved verbatim and all optional fields absent; syntactically valid
JSON, however, is returned as parsed without any shape validation. -/
theorem parsePost_syntax_error_gives_unknown (post : Post)
    (fields : List (String × Json))
    (hact : post.action = Json.obj fields)
    (hty : isMicroblogType (objLookup fields "type") = false)
    (hraw : jsonParse post.rawContent = none) :
    parsePost post = unknownFallback post.rawContent
  ∧ jsGet (parsePost post) "type" = some (Json.str "unknown")
  ∧ jsGet (parsePost post) "text" = some (Json.str post.rawContent)
  ∧ jsGet (parsePost post) "image" = none
  ∧ jsGet (parsePost post) "replyTo" = none := by
  have hmain : parsePost post = unknownFallback post.rawContent := by
    simp [parsePost, hact, hty, parseRawOrFallback, hraw]
  refine ⟨hmain, ?_, ?_, ?_, ?_⟩ <;> rw [hmain] <;> rfl

/-- C2 witness: the literal payload `hello` with an empty-object `action`
decodes to the unknown fallback with the raw string preserved. -/
theorem parsePost_syntax_error_gives_unknown_witness :
    parsePost helloPost = unknownFallback "hello"
  ∧ jsGet (parsePost helloPost) "text" = some (Json.str "hello") :=
  ⟨(parsePost_syntax_error_gives_unknown helloPost [] rfl rfl rfl).1,
   (parsePost_syntax_error_gives_unknown helloPost [] rfl rfl rfl).2.2.1⟩

/-- C3 counterexample: the post with payload `hello` from the
non-deny-listed author `0xGOOD` decodes to `{type:'unknown',
text:'hello'}` and survives the author filter, yet the rendered output is
empty — the render guard `text && type == 'microblog'` excludes it, so it
is not included in the output as the claim requires. -/
theorem unknown_post_not_included_in_output :
    parsePost helloPost = unknownFallback "hello"
  ∧ filterTransactions ["0xBAD"] [goodTx] = [goodTx]
  ∧ viewGraphOutput ["0xBAD"] [goodTx] = [] :=
  ⟨rfl, rfl, rfl⟩

/-- C3 (amended): a post decoding to type `"unknown"` renders nothing,
and its presence never drops the posts around it: the rendered boxes of
any list containing it are exactly those of the list without it. -/
theorem unknown_post_renders_nothing_drops_nothing (t : TxGroup)
    (l1 l2 : List Post) (p : Post)
    (h : jsGet (parsePost p) "type" = some (Json.str "unknown")) :
    renderPost t p = none
  ∧ renderPosts t (l1 ++ p :: l2) = renderPosts t l1 ++ renderPosts t l2 := by
  have hr : renderPost t p = none := by
    simp [renderPost, h, isMicroblogType]
  exact ⟨hr, by simp [renderPosts, List.filterMap_append, List.filterMap_cons, hr]⟩

/-- C3 witness: the `hello` post renders nothing and drops nothing. -/
theorem unknown_post_renders_nothing_witness :
    renderPost someTx helloPost = none
  ∧ renderPosts someTx ([] ++ helloPost :: []) =
      renderPosts someTx [] ++ renderPosts someTx [] :=
  unknown_post_renders_nothing_drops_nothing someTx [] [] helloPost rfl

/-- C5: for every deny-listed author `A`, no surviving transaction group
and no rendered box carries `A`, for any input; and the end-to-end
scenario of a single group by `0xBAD` (which is deny-listed) renders an
empty output. -/
theorem filtered_author_never_in_output (denyList : List String) (A : String)
    (txs : List TxGroup) (hA : A ∈ denyList) :
    (∀ t ∈ filterTransactions denyList txs, t.fromAcct.id ≠ A)
  ∧ (∀ b ∈ viewGraphOutput denyList txs, b.authorId ≠ A)
  ∧ viewGraphOutput ["0xBAD"] [badTx] = [] := by
  have h1 : ∀ t ∈ filterTransactions denyList txs, t.fromAcct.id ≠ A := by
    intro t ht heq
    have hmem := List.of_mem_filter ht
    rw [heq] at hmem
    have hcontains : denyList.contains A = true := by
      simpa using hA
    rw [hcontains] at hmem
    cases hmem
  refine ⟨h1, ?_, rfl⟩
  intro b hb heq
  unfold viewGraphOutput at hb
  split at hb
  · cases hb
  · simp only [List.mem_flatten, List.mem_map] at hb
    obtain ⟨l, ⟨t, ht, hl⟩, hbl⟩ := hb
    rw [← hl] at hbl
    have := authorId_of_mem_renderTxGroup hbl
    exact h1 t ht (by rw [← this, heq])

/-- C5 witness: with deny-list `["0xBAD"]` and the single `0xBAD` group,
the filter removes the group and the rendered output is empty. -/
theorem filtered_author_never_in_output_witness :
    ("0xBAD" : String) ∈ ["0xBAD"]
  ∧ (∀ t ∈ filterTransactions ["0xBAD"] [badTx], t.fromAcct.id ≠ "0xBAD")
  ∧ viewGraphOutput ["0xBAD"] [badTx] = [] := by
  have h : ("0xBAD" : String) ∈ ["0xBAD"] := List.mem_singleton.mpr rfl
  exact ⟨h, (filtered_author_never_in_output ["0xBAD"] "0xBAD" [badTx] h).1,
            (filtered_author_never_in_output ["0xBAD"] "0xBAD" [badTx] h).2.2⟩

/-- C6: when `action` is an object whose `type` field is the string
`"microblog"`, `parsePost` returns the action unchanged — for every
`rawContent`, which is therefore ignored. -/
theorem parsePost_microblog_fast_path (post : Post)
    (fields : List (String × Json))
    (hact : post.action = Json.obj fields)
    (hty : objLookup fields "type" = some (Json.str "microblog")) :
    parsePost post = post.action := by
  simp [parsePost, hact, hty, isMicroblogType]

/-- C6 witness: `{action: {type:'microblog', text:'hi'}}` is returned
unchanged although its `rawContent` is itself parseable JSON. -/
theorem parsePost_microblog_fast_path_witness :
    parsePost fastPost = fastPost.action
  ∧ jsonParse fastPost.rawContent = some (Json.arr []) :=
  ⟨parsePost_microblog_fast_path fastPost
      [("type", Json.str "microblog"), ("text", Json.str "hi")] rfl rfl, rfl⟩

/-- C7: the author filter is idempotent and order-preserving (its output
is a sublist of its input). -/
theorem filterTransactions_idempotent_order (denyList : List String)
    (txs : List TxGroup) :
    filterTransactions denyList (filterTransactions denyList txs)
      = filterTransactions denyList txs
  ∧ List.Sublist (filterTransactions denyList txs) txs := by
  constructor
  · simp [filterTransactions, List.filter_filter]
  · exact List.filter_sublist txs

/-- C8: when `action` is an object whose `type` field is not the string
`"microblog"` (any other value, or absent), `parsePost` ignores the
action and parses `rawContent`, returning the unknown fallback when the
parse fails. -/
theorem parsePost_other_type_parses_raw (post : Post)
    (fields : List (String × Json))
    (hact : post.action = Json.obj fields)
    (hty : isMicroblogType (objLookup fields "type") = false) :
    parsePost post = parseRawOrFallback post.rawContent
  ∧ (jsonParse post.rawContent = none →
      parsePost post = unknownFallback post.rawContent) := by
  have h1 : parsePost post = parseRawOrFallback post.rawContent := by
    simp [parsePost, hact, hty]
  exact ⟨h1, fun hn => by rw [h1]; simp [parseRawOrFallback, hn]⟩

/-- C8 witness: an `action` of type `"unknown"` is ignored and the
unparseable `rawContent` `hello` falls back to the unknown value. -/
theorem parsePost_other_type_parses_raw_witness :
    parsePost otherTypePost = parseRawOrFallback "hello"
  ∧ parsePost otherTypePost = unknownFallback "hello" :=
  ⟨(parsePost_other_type_parses_raw otherTypePost
      [("type", Json.str "unknown")] rfl rfl).1,
   (parsePost_other_type_parses_raw otherTypePost
      [("type", Json.str "unknown")] rfl rfl).2 rfl⟩

/-- C9: a box is produced only when the decoded `type` is `"microblog"`
and the decoded `text` is truthy; in particular a decoded empty-string
`text` renders nothing even when the type is `"microblog"`. -/
theorem render_guard_requires_microblog_and_text (t : TxGroup) (post : Post) :
    (∀ b, renderPost t post = some b →
        jsGet (parsePost post) "type" = some (Json.str "microblog")
      ∧ jsTruthy (jsGet (parsePost post) "text") = true)
  ∧ (jsGet (parsePost post) "text" = some (Json.str "") →
      renderPost t post = none) := by
  constructor
  · intro b hb
    simp only [renderPost] at hb
    split at hb
    · next hc =>
        have h2 := Bool.and_eq_true_iff.mp hc
        exact ⟨isMicroblogType_eq.mp h2.2, h2.1⟩
    · cases hb
  · intro ht
    simp [renderPost, ht, jsTruthy]

/-- C9 witness: the payload `{"type":"microblog","text":""}` decodes to a
microblog with empty text and renders nothing. -/
theorem render_guard_requires_microblog_and_text_witness :
    renderPost someTx emptyTextPost = none
  ∧ jsGet (parsePost emptyTextPost) "type" = some (Json.str "microblog") :=
  ⟨(render_guard_requires_microblog_and_text someTx emptyTextPost).2 rfl, rfl⟩

/-- C10: when `action` is null or undefined, the `'type' in action` test
throws, the catch handler absorbs the throw, and the result is the
unknown fallback with the raw string preserved — for every `rawContent`,
even one holding valid microblog JSON. -/
theorem parsePost_missing_action_total (post : Post)
    (h : post.action = Json.null ∨ post.action = Json.undef) :
    parsePost post = unknownFallback post.rawContent := by
  cases h with
  | inl h => simp [parsePost, h]
  | inr h => simp [parsePost, h]

/-- C10 witness: a null `action` yields the unknown fallback although the
`rawContent` is itself well-formed microblog JSON. -/
theorem parsePost_missing_action_total_witness :
    parsePost nullActionPost = unknownFallback nullActionPost.rawContent
  ∧ (jsonParse nullActionPost.rawContent).isSome = true :=
  ⟨parsePost_missing_action_total nullActionPost (Or.inl rfl), rfl⟩
